import Mathlib

/-!
Verification development for the D-Bus marshaled-data validator
(dbus-marshal-validate.c): the signature grammar validator, the body
structural validator, and the lexical name validators, embedded shallowly
over byte buffers modelled as `Nat`-valued functions.

Pointers are modelled as indices into the underlying buffer; the buffer is
assumed to begin at an 8-aligned address, so `_DBUS_ALIGN_ADDRESS` on a
pointer becomes rounding the index up to a multiple of the alignment.
-/

/-- Wire-protocol constant `DBUS_MAXIMUM_SIGNATURE_LENGTH`. -/
def DBUS_MAXIMUM_SIGNATURE_LENGTH : Nat := 255

/-- Wire-protocol constant `DBUS_MAXIMUM_TYPE_RECURSION_DEPTH`. -/
def DBUS_MAXIMUM_TYPE_RECURSION_DEPTH : Nat := 32

/-- Wire-protocol constant `DBUS_MAXIMUM_NAME_LENGTH`. -/
def DBUS_MAXIMUM_NAME_LENGTH : Nat := 255

/-- Type code `DBUS_TYPE_INVALID` (nul). -/
def DBUS_TYPE_INVALID : Nat := 0
/-- Type code `DBUS_TYPE_BYTE` = ASCII y. -/
def DBUS_TYPE_BYTE : Nat := 121
/-- Type code `DBUS_TYPE_BOOLEAN` = ASCII b. -/
def DBUS_TYPE_BOOLEAN : Nat := 98
/-- Type code `DBUS_TYPE_INT32` = ASCII i. -/
def DBUS_TYPE_INT32 : Nat := 105
/-- Type code `DBUS_TYPE_UINT32` = ASCII u. -/
def DBUS_TYPE_UINT32 : Nat := 117
/-- Type code `DBUS_TYPE_INT64` = ASCII x. -/
def DBUS_TYPE_INT64 : Nat := 120
/-- Type code `DBUS_TYPE_UINT64` = ASCII t. -/
def DBUS_TYPE_UINT64 : Nat := 116
/-- Type code `DBUS_TYPE_DOUBLE` = ASCII d. -/
def DBUS_TYPE_DOUBLE : Nat := 100
/-- Type code `DBUS_TYPE_STRING` = ASCII s. -/
def DBUS_TYPE_STRING : Nat := 115
/-- Type code `DBUS_TYPE_OBJECT_PATH` = ASCII o. -/
def DBUS_TYPE_OBJECT_PATH : Nat := 111
/-- Type code `DBUS_TYPE_SIGNATURE` = ASCII g. -/
def DBUS_TYPE_SIGNATURE : Nat := 103
/-- Type code `DBUS_TYPE_VARIANT` = ASCII v. -/
def DBUS_TYPE_VARIANT : Nat := 118
/-- Type code `DBUS_TYPE_ARRAY` = ASCII a. -/
def DBUS_TYPE_ARRAY : Nat := 97
/-- Type code `DBUS_TYPE_STRUCT` = ASCII r (never appears in signatures). -/
def DBUS_TYPE_STRUCT : Nat := 114
/-- Signature code `DBUS_STRUCT_BEGIN_CHAR` = ASCII left paren. -/
def DBUS_STRUCT_BEGIN_CHAR : Nat := 40
/-- Signature code `DBUS_STRUCT_END_CHAR` = ASCII right paren. -/
def DBUS_STRUCT_END_CHAR : Nat := 41

/-- Byte-order tag `DBUS_LITTLE_ENDIAN` = ASCII l. -/
def DBUS_LITTLE_ENDIAN : Nat := 108

/-- The closed enumeration of validity codes returned by the validators
(`DBusValidity` in dbus-marshal-validate.h). -/
inductive DBusValidity where
  | DBUS_VALID
  | DBUS_INVALID_SIGNATURE_TOO_LONG
  | DBUS_INVALID_EXCEEDED_MAXIMUM_ARRAY_RECURSION
  | DBUS_INVALID_EXCEEDED_MAXIMUM_STRUCT_RECURSION
  | DBUS_INVALID_STRUCT_ENDED_BUT_NOT_STARTED
  | DBUS_INVALID_STRUCT_HAS_NO_FIELDS
  | DBUS_INVALID_UNKNOWN_TYPECODE
  | DBUS_INVALID_MISSING_ARRAY_ELEMENT_TYPE
  | DBUS_INVALID_STRUCT_STARTED_BUT_NOT_ENDED
  | DBUS_INVALID_NOT_ENOUGH_DATA
  | DBUS_INVALID_TOO_MUCH_DATA
  | DBUS_INVALID_ALIGNMENT_PADDING_NOT_NUL
  | DBUS_INVALID_BOOLEAN_NOT_ZERO_OR_ONE
  | DBUS_INVALID_STRING_LENGTH_OUT_OF_BOUNDS
  | DBUS_INVALID_BAD_PATH
  | DBUS_INVALID_BAD_UTF8_IN_STRING
  | DBUS_INVALID_ARRAY_LENGTH_INCORRECT
  | DBUS_INVALID_STRING_MISSING_NUL
  | DBUS_INVALID_SIGNATURE_LENGTH_OUT_OF_BOUNDS
  | DBUS_INVALID_BAD_SIGNATURE
  | DBUS_INVALID_SIGNATURE_MISSING_NUL
  | DBUS_INVALID_VARIANT_SIGNATURE_LENGTH_OUT_OF_BOUNDS
  | DBUS_INVALID_VARIANT_SIGNATURE_BAD
  | DBUS_INVALID_VARIANT_SIGNATURE_MISSING_NUL
  | DBUS_INVALID_VARIANT_SIGNATURE_EMPTY
  | DBUS_INVALID_VARIANT_SIGNATURE_SPECIFIES_MULTIPLE_VALUES
  deriving DecidableEq, Repr

open DBusValidity

/-- A caller-owned byte buffer with its length (`DBusString`): `data i` is the
byte stored at index `i` of the underlying memory (indices past `length` model
whatever memory happens to follow the string). -/
structure DBusString where
  data : Nat → Nat
  length : Nat

/-- Read one `unsigned char` from the underlying memory (raw pointer read). -/
def byteAt (s : DBusString) (i : Nat) : Nat := s.data i % 256

/-- Read a byte through the string abstraction: a `DBusString` is always
nul-terminated, so indices at or past `length` read as 0. -/
def strByte (s : DBusString) (i : Nat) : Nat :=
  if i < s.length then byteAt s i else 0

/-- Build a `DBusString` from a concrete list of bytes. -/
def mkStr (bs : List Nat) : DBusString :=
  { data := fun i => bs.getD i 0, length := bs.length }

/-- The bytes of the range `[start, start+len)` of a string, as a list. -/
def rangeBytes (s : DBusString) (start len : Nat) : List Nat :=
  (List.range len).map (fun i => byteAt s (start + i))

/-- `_DBUS_ALIGN_ADDRESS` on an index: round `p` up to a multiple of `al`
(the buffer is assumed to start 8-aligned). -/
def alignTo (p al : Nat) : Nat := ((p + al - 1) / al) * al

/-- Modelled from the spec: `_dbus_type_get_alignment` lives in
dbus-marshal-basic.c, which is not part of the given sources.  Per the spec
the alignments are 1/4/8: byte, signature and variant are unaligned (1);
boolean, int32, uint32, string, object path and array (its length prefix)
align to 4; int64, uint64, double and struct align to 8.  Unknown codes are
a programmer-error assertion in the original; modelled as alignment 1. -/
def _dbus_type_get_alignment (t : Nat) : Nat :=
  if t = DBUS_TYPE_BYTE ∨ t = DBUS_TYPE_SIGNATURE ∨ t = DBUS_TYPE_VARIANT then 1
  else if t = DBUS_TYPE_BOOLEAN ∨ t = DBUS_TYPE_INT32 ∨ t = DBUS_TYPE_UINT32 ∨
          t = DBUS_TYPE_STRING ∨ t = DBUS_TYPE_OBJECT_PATH ∨ t = DBUS_TYPE_ARRAY then 4
  else if t = DBUS_TYPE_INT64 ∨ t = DBUS_TYPE_UINT64 ∨ t = DBUS_TYPE_DOUBLE ∨
          t = DBUS_TYPE_STRUCT then 8
  else 1

/-- Modelled from the spec: `_dbus_unpack_uint32` lives in dbus-marshal-basic.c,
not part of the given sources.  Per the spec, multi-byte integers are read per
the caller-supplied byte order; length prefixes are unsigned 32-bit. -/
def _dbus_unpack_uint32 (byte_order : Nat) (s : DBusString) (p : Nat) : Nat :=
  if byte_order = DBUS_LITTLE_ENDIAN then
    byteAt s p + byteAt s (p + 1) * 256 + byteAt s (p + 2) * 65536 +
      byteAt s (p + 3) * 16777216
  else
    byteAt s (p + 3) + byteAt s (p + 2) * 256 + byteAt s (p + 1) * 65536 +
      byteAt s p * 16777216

/-- State of the signature grammar scan: `struct_depth`, `array_depth` and the
`last` type code seen (`DBUS_TYPE_INVALID` initially). -/
structure SigSt where
  struct_depth : Nat
  array_depth : Nat
  last : Nat
  deriving DecidableEq, Repr

/-- One iteration of the scan loop of `_dbus_validate_signature_with_reason`:
given the state and the current byte, either return early with a failure code
or produce the state after the iteration (including the reset of
`array_depth` to 0 after any non-array code and the update of `last`). -/
def sigStep (st : SigSt) (c : Nat) : Except DBusValidity SigSt :=
  if c = DBUS_TYPE_BYTE ∨ c = DBUS_TYPE_BOOLEAN ∨ c = DBUS_TYPE_INT32 ∨
     c = DBUS_TYPE_UINT32 ∨ c = DBUS_TYPE_INT64 ∨ c = DBUS_TYPE_UINT64 ∨
     c = DBUS_TYPE_DOUBLE ∨ c = DBUS_TYPE_STRING ∨ c = DBUS_TYPE_OBJECT_PATH ∨
     c = DBUS_TYPE_SIGNATURE ∨ c = DBUS_TYPE_VARIANT then
    .ok ⟨st.struct_depth, 0, c⟩
  else if c = DBUS_TYPE_ARRAY then
    if st.array_depth + 1 > DBUS_MAXIMUM_TYPE_RECURSION_DEPTH then
      .error DBUS_INVALID_EXCEEDED_MAXIMUM_ARRAY_RECURSION
    else .ok ⟨st.struct_depth, st.array_depth + 1, c⟩
  else if c = DBUS_STRUCT_BEGIN_CHAR then
    if st.struct_depth + 1 > DBUS_MAXIMUM_TYPE_RECURSION_DEPTH then
      .error DBUS_INVALID_EXCEEDED_MAXIMUM_STRUCT_RECURSION
    else .ok ⟨st.struct_depth + 1, 0, c⟩
  else if c = DBUS_STRUCT_END_CHAR then
    if st.struct_depth = 0 then .error DBUS_INVALID_STRUCT_ENDED_BUT_NOT_STARTED
    else if st.last = DBUS_STRUCT_BEGIN_CHAR then .error DBUS_INVALID_STRUCT_HAS_NO_FIELDS
    else .ok ⟨st.struct_depth - 1, 0, c⟩
  else .error DBUS_INVALID_UNKNOWN_TYPECODE

/-- The post-scan checks of `_dbus_validate_signature_with_reason`. -/
def sigFinish (st : SigSt) : DBusValidity :=
  if st.array_depth > 0 then DBUS_INVALID_MISSING_ARRAY_ELEMENT_TYPE
  else if st.struct_depth > 0 then DBUS_INVALID_STRUCT_STARTED_BUT_NOT_ENDED
  else DBUS_VALID

/-- The scan loop of `_dbus_validate_signature_with_reason`: walk the bytes at
indices `p, p+1, ...` (the third argument is the number of bytes remaining,
`end - p`). -/
def sigScan (s : DBusString) (p : Nat) : Nat → SigSt → DBusValidity
  | 0, st => sigFinish st
  | n + 1, st =>
    match sigStep st (byteAt s p) with
    | .error v => v
    | .ok st' => sigScan s (p + 1) n st'

/-- `_dbus_validate_signature_with_reason`: validate the range
`[type_pos, type_pos+len)` of `type_str` as a signature. -/
def _dbus_validate_signature_with_reason (type_str : DBusString) (type_pos len : Nat) :
    DBusValidity :=
  if len > DBUS_MAXIMUM_SIGNATURE_LENGTH then DBUS_INVALID_SIGNATURE_TOO_LONG
  else sigScan type_str type_pos len ⟨0, 0, DBUS_TYPE_INVALID⟩

/-- `_dbus_validate_signature`: boolean wrapper (also range-checks `len`
against the string length). -/
def _dbus_validate_signature (str : DBusString) (start len : Nat) : Bool :=
  if len > str.length - start then false
  else decide (_dbus_validate_signature_with_reason str start len = DBUS_VALID)

/-- Macro `VALID_INITIAL_NAME_CHARACTER`: ASCII letter or underscore. -/
def VALID_INITIAL_NAME_CHARACTER (c : Nat) : Bool :=
  decide ((65 ≤ c ∧ c ≤ 90) ∨ (97 ≤ c ∧ c ≤ 122) ∨ c = 95)

/-- Macro `VALID_NAME_CHARACTER`: ASCII digit, letter or underscore. -/
def VALID_NAME_CHARACTER (c : Nat) : Bool :=
  decide ((48 ≤ c ∧ c ≤ 57) ∨ (65 ≤ c ∧ c ≤ 90) ∨ (97 ≤ c ∧ c ≤ 122) ∨ c = 95)

/-- The scan loop of `_dbus_validate_path` over the bytes after the leading
slash.  The second argument is the distance `s - last_slash` from the most
recent slash to the byte about to be examined; the returned value (on
success) is the final distance `end - last_slash`. -/
def pathLoop : List Nat → Nat → Option Nat
  | [], gap => some gap
  | c :: rest, gap =>
    if c = 47 then
      if gap < 2 then none else pathLoop rest 1
    else if VALID_NAME_CHARACTER c then pathLoop rest (gap + 1)
    else none

/-- `_dbus_validate_path`: check that `[start, start+len)` of `str` is a valid
object path. -/
def _dbus_validate_path (str : DBusString) (start len : Nat) : Bool :=
  if len > str.length - start then false
  else if len = 0 then false
  else
    let bs := rangeBytes str start len
    if (bs.headD 0) ≠ 47 then false
    else
      match pathLoop bs.tail 1 with
      | none => false
      | some gap => if gap < 2 ∧ len > 1 then false else true

/-- The scan loop of `_dbus_validate_interface` after the first byte; the
boolean records whether a dot has been seen (`last_dot != NULL`), which is
required at the end. -/
def ifaceLoop : List Nat → Bool → Bool
  | [], seen_dot => seen_dot
  | c :: rest, seen_dot =>
    if c = 46 then
      match rest with
      | [] => false
      | d :: rest' =>
        if VALID_INITIAL_NAME_CHARACTER d then ifaceLoop rest' true else false
    else if VALID_NAME_CHARACTER c then ifaceLoop rest seen_dot
    else false

/-- `_dbus_validate_interface`: check that `[start, start+len)` of `str` is a
valid interface name. -/
def _dbus_validate_interface (str : DBusString) (start len : Nat) : Bool :=
  if len > str.length - start then false
  else if len > DBUS_MAXIMUM_NAME_LENGTH then false
  else if len = 0 then false
  else
    match rangeBytes str start len with
    | [] => false
    | c :: rest =>
      if c = 46 then false
      else if ¬ VALID_INITIAL_NAME_CHARACTER c then false
      else ifaceLoop rest false

/-- The scan loop of `_dbus_validate_member` after the first byte. -/
def memberLoop : List Nat → Bool
  | [] => true
  | c :: rest => if VALID_NAME_CHARACTER c then memberLoop rest else false

/-- `_dbus_validate_member`: check that `[start, start+len)` of `str` is a
valid member name. -/
def _dbus_validate_member (str : DBusString) (start len : Nat) : Bool :=
  if len > str.length - start then false
  else if len > DBUS_MAXIMUM_NAME_LENGTH then false
  else if len = 0 then false
  else
    match rangeBytes str start len with
    | [] => false
    | c :: rest =>
      if ¬ VALID_INITIAL_NAME_CHARACTER c then false
      else memberLoop rest

/-- `_dbus_validate_error_name`: same restrictions as interface names. -/
def _dbus_validate_error_name (str : DBusString) (start len : Nat) : Bool :=
  _dbus_validate_interface str start len

/-- The scan loop of `_dbus_validate_unique_name` over the bytes after the
leading colon. -/
def uniqueLoop : List Nat → Bool
  | [] => true
  | c :: rest =>
    if c = 46 then
      match rest with
      | [] => false
      | d :: rest' => if VALID_NAME_CHARACTER d then uniqueLoop rest' else false
    else if VALID_NAME_CHARACTER c then uniqueLoop rest
    else false

/-- `_dbus_validate_unique_name`: validate a bus name whose first byte is the
colon (the caller guarantees `len > 0` and that byte); the loop walks the
remaining `len - 1` bytes. -/
def _dbus_validate_unique_name (str : DBusString) (start len : Nat) : Bool :=
  if len > str.length - start then false
  else if len > DBUS_MAXIMUM_NAME_LENGTH then false
  else uniqueLoop (rangeBytes str (start + 1) (len - 1))

/-- `_dbus_validate_bus_name`: dispatch on the first byte. -/
def _dbus_validate_bus_name (str : DBusString) (start len : Nat) : Bool :=
  if len = 0 then false
  else if byteAt str start = 58 then _dbus_validate_unique_name str start len
  else _dbus_validate_interface str start len

/-- Modelled from the spec: the type-reader cursor over a pre-validated
signature is an external collaborator (dbus-marshal-recursive.c, §6 of the
spec): it exposes the current type code (or none), the element type of a
currently-pointed array, descent into a container, and advance to the next
top-level type.  Modelled as a signature string plus a position. -/
structure TypeReader where
  sig : DBusString
  pos : Nat

/-- Map a raw signature byte to the type code the reader reports: the struct
begin paren reads as `DBUS_TYPE_STRUCT`, the struct end paren (which closes
the container the reader is walking) and the terminating nul read as
`DBUS_TYPE_INVALID`. -/
def mapTypeCode (c : Nat) : Nat :=
  if c = DBUS_STRUCT_BEGIN_CHAR then DBUS_TYPE_STRUCT
  else if c = DBUS_STRUCT_END_CHAR then DBUS_TYPE_INVALID
  else c

/-- Modelled from the spec: `_dbus_type_reader_get_current_type`. -/
def reader_current_type (r : TypeReader) : Nat :=
  mapTypeCode (strByte r.sig r.pos)

/-- Modelled from the spec: `_dbus_type_reader_get_element_type` of a reader
pointing at an array: the type immediately after the array marker. -/
def reader_element_type (r : TypeReader) : Nat :=
  mapTypeCode (strByte r.sig (r.pos + 1))

/-- Modelled from the spec: `_dbus_type_reader_recurse` into the container the
reader points at (array marker or struct begin paren): a fresh cursor on the
first contained type. -/
def reader_recurse (r : TypeReader) : TypeReader :=
  ⟨r.sig, r.pos + 1⟩

/-- Modelled from the spec: `_dbus_first_type_in_signature` at position 0. -/
def first_type_in_signature (s : DBusString) : Nat :=
  mapTypeCode (strByte s 0)

/-- Skip to just past the struct whose begin paren is at `pos - 1` (the given
`depth` parens are currently open); fueled walk. -/
def skipStruct (s : DBusString) : Nat → Nat → Nat → Nat
  | 0, pos, _ => pos
  | f + 1, pos, depth =>
    let c := strByte s pos
    if c = DBUS_TYPE_INVALID then pos
    else if c = DBUS_STRUCT_BEGIN_CHAR then skipStruct s f (pos + 1) (depth + 1)
    else if c = DBUS_STRUCT_END_CHAR then
      if depth ≤ 1 then pos + 1 else skipStruct s f (pos + 1) (depth - 1)
    else skipStruct s f (pos + 1) depth

/-- Skip one complete type expression starting at `pos`; fueled walk. -/
def skipOneType (s : DBusString) : Nat → Nat → Nat
  | 0, pos => pos
  | f + 1, pos =>
    let c := strByte s pos
    if c = DBUS_TYPE_ARRAY then skipOneType s f (pos + 1)
    else if c = DBUS_STRUCT_BEGIN_CHAR then skipStruct s f (pos + 1) 1
    else pos + 1

/-- Modelled from the spec: `_dbus_type_reader_next`, advance past one
complete type expression. -/
def reader_next (r : TypeReader) : TypeReader :=
  ⟨r.sig, skipOneType r.sig (r.sig.length + 1) r.pos⟩

/-- Whether a UTF-8 continuation byte. -/
def utf8Cont (b : Nat) : Bool := decide (128 ≤ b ∧ b ≤ 191)

/-- Modelled from the spec: UTF-8 validation over a range is an external
collaborator (`_dbus_string_validate_utf8` in dbus-string.c, §6 of the spec);
modelled as a standard RFC 3629 scan (no overlong forms, no surrogates, max
U+10FFFF).  The second argument is the position, the third the number of
bytes remaining. -/
def utf8Scan (s : DBusString) : Nat → Nat → Bool
  | _, 0 => true
  | p, n + 1 =>
    let c := byteAt s p
    if c < 128 then utf8Scan s (p + 1) n
    else if c < 194 then false
    else if c < 224 then
      match n with
      | 0 => false
      | m + 1 => utf8Cont (byteAt s (p + 1)) && utf8Scan s (p + 2) m
    else if c < 240 then
      match n with
      | 0 => false
      | 1 => false
      | m + 2 =>
        (if c = 224 then decide (160 ≤ byteAt s (p + 1) ∧ byteAt s (p + 1) ≤ 191)
         else if c = 237 then decide (128 ≤ byteAt s (p + 1) ∧ byteAt s (p + 1) ≤ 159)
         else utf8Cont (byteAt s (p + 1))) &&
        utf8Cont (byteAt s (p + 2)) && utf8Scan s (p + 3) m
    else if c < 245 then
      match n with
      | 0 => false
      | 1 => false
      | 2 => false
      | m + 3 =>
        (if c = 240 then decide (144 ≤ byteAt s (p + 1) ∧ byteAt s (p + 1) ≤ 191)
         else if c = 244 then decide (128 ≤ byteAt s (p + 1) ∧ byteAt s (p + 1) ≤ 143)
         else utf8Cont (byteAt s (p + 1))) &&
        utf8Cont (byteAt s (p + 2)) && utf8Cont (byteAt s (p + 3)) && utf8Scan s (p + 4) m
    else false
  termination_by p n => n

/-- Modelled from the spec: `_dbus_string_validate_utf8` over the range
`[start, start+len)`. -/
def _dbus_string_validate_utf8 (s : DBusString) (start len : Nat) : Bool :=
  utf8Scan s start len

/-- Result of (one step of) body validation: the validity code, the final
cursor position (meaningful only when valid, like `*new_p`), plus
instrumentation recording which byte positions were skipped as alignment
padding: `chk` holds the positions the code nul-checked while skipping,
`unchk` the positions skipped without any check (the array element-alignment
skip).  The instrumentation is annotation only; it does not influence
control flow. -/
structure VRes where
  v : DBusValidity
  p : Nat
  chk : List Nat
  unchk : List Nat
  deriving DecidableEq, Repr

/-- Outcome of one `switch` case of `validate_body_helper`: an early `return`
with a failure code, or the advanced cursor; both carry the padding
instrumentation of the step. -/
def StepRes : Type :=
  Except (DBusValidity × List Nat × List Nat) (Nat × List Nat × List Nat)

/-- The `while (p != a)` nul-check loops of `validate_body_helper`: examine
`g` bytes starting at index `p`; on the first non-nul byte return the
positions examined so far (error side), otherwise all `g` positions
(ok side). -/
def checkPadding (buf : DBusString) : Nat → Nat → Except (List Nat) (List Nat)
  | _, 0 => .ok []
  | p, g + 1 =>
    if byteAt buf p ≠ 0 then .error [p]
    else
      match checkPadding buf (p + 1) g with
      | .ok l => .ok (p :: l)
      | .error l => .error (p :: l)

/-- The list of positions `[p, q)` (skipped with no check). -/
def rangePositions (p q : Nat) : List Nat :=
  (List.range (q - p)).map (fun i => p + i)

/-- The `while (p < array_end)` loop of the array case of
`validate_body_helper`: repeatedly validate one element with `elemF` (the
recursive call, walk mode off) until the cursor reaches `array_end`. -/
def arrayLoopF (elemF : Nat → Option VRes) (array_end : Nat) : Nat → Nat → Option VRes
  | 0, _ => none
  | f + 1, p =>
    if p < array_end then
      match elemF p with
      | none => none
      | some r =>
        if r.v ≠ DBUS_VALID then some r
        else
          match arrayLoopF elemF array_end f r.p with
          | none => none
          | some r2 => some ⟨r2.v, r2.p, r.chk ++ r2.chk, r.unchk ++ r2.unchk⟩
    else some ⟨DBUS_VALID, p, [], []⟩

/-- The `DBUS_TYPE_BOOLEAN` .. `DBUS_TYPE_DOUBLE` case of
`validate_body_helper`: align to the natural width (nul-checking skipped
bytes), require the aligned address to be below `end`, for boolean require
the 4-byte word to be 0 or 1, advance by the width. -/
def stepFixed (current_type byte_order : Nat) (buf : DBusString) (p pend : Nat) : StepRes :=
  let alignment := _dbus_type_get_alignment current_type
  let a := alignTo p alignment
  if a ≥ pend then .error (DBUS_INVALID_NOT_ENOUGH_DATA, [], [])
  else
    match checkPadding buf p (a - p) with
    | .error l => .error (DBUS_INVALID_ALIGNMENT_PADDING_NOT_NUL, l, [])
    | .ok l =>
      if current_type = DBUS_TYPE_BOOLEAN ∧
         ¬(_dbus_unpack_uint32 byte_order buf a = 0 ∨ _dbus_unpack_uint32 byte_order buf a = 1) then
        .error (DBUS_INVALID_BOOLEAN_NOT_ZERO_OR_ONE, l, [])
      else .ok (a + alignment, l, [])

/-- The further alignment of the array case (source lines 211-216): for an
array, round the cursor just past the length prefix up to the element
alignment; for string and object path, leave it. -/
def arraySecondAlign (current_type : Nat) (reader : TypeReader) (p1 : Nat) : Nat :=
  if current_type = DBUS_TYPE_ARRAY then
    alignTo p1 (_dbus_type_get_alignment (reader_element_type reader))
  else p1

/-- The byte positions skipped by the array further alignment (skipped with
no nul check in the source). -/
def arraySecondSkips (current_type : Nat) (reader : TypeReader) (p1 : Nat) : List Nat :=
  if current_type = DBUS_TYPE_ARRAY then
    rangePositions p1 (arraySecondAlign current_type reader p1)
  else []

/-- The `DBUS_TYPE_ARRAY` / `DBUS_TYPE_STRING` / `DBUS_TYPE_OBJECT_PATH` case
of `validate_body_helper`.  `vrec` is the recursive call (reader, walk mode,
cursor).  Align to 4 with nul checks, read the 4-byte length, for arrays
further align to the element alignment with no check on the skipped bytes,
range-check the claimed length (the C comparison casts the possibly negative
`end - p` to `unsigned long`, so when `p > end` it passes), then validate the
contents and the trailing nul (non-array only). -/
def stepLenPrefixed (vrec : TypeReader → Bool → Nat → Option VRes) (f : Nat)
    (reader : TypeReader) (current_type byte_order : Nat) (buf : DBusString)
    (p pend : Nat) : Option StepRes :=
  let a := alignTo p 4
  if a + 4 > pend then some (.error (DBUS_INVALID_NOT_ENOUGH_DATA, [], []))
  else
    match checkPadding buf p (a - p) with
    | .error l => some (.error (DBUS_INVALID_ALIGNMENT_PADDING_NOT_NUL, l, []))
    | .ok l =>
      let claimed_len := _dbus_unpack_uint32 byte_order buf a
      let p1 := a + 4
      let p2 := arraySecondAlign current_type reader p1
      let u := arraySecondSkips current_type reader p1
      if p2 ≤ pend ∧ claimed_len > pend - p2 then
        some (.error (DBUS_INVALID_STRING_LENGTH_OUT_OF_BOUNDS, l, u))
      else if current_type = DBUS_TYPE_OBJECT_PATH then
        let str : DBusString := ⟨fun i => buf.data (p2 + i), claimed_len⟩
        if ¬ _dbus_validate_path str 0 claimed_len then
          some (.error (DBUS_INVALID_BAD_PATH, l, u))
        else
          let p3 := p2 + claimed_len
          if p3 = pend then some (.error (DBUS_INVALID_NOT_ENOUGH_DATA, l, u))
          else if byteAt buf p3 ≠ 0 then some (.error (DBUS_INVALID_STRING_MISSING_NUL, l, u))
          else some (.ok (p3 + 1, l, u))
      else if current_type = DBUS_TYPE_STRING then
        let str : DBusString := ⟨fun i => buf.data (p2 + i), claimed_len⟩
        if ¬ _dbus_string_validate_utf8 str 0 claimed_len then
          some (.error (DBUS_INVALID_BAD_UTF8_IN_STRING, l, u))
        else
          let p3 := p2 + claimed_len
          if p3 = pend then some (.error (DBUS_INVALID_NOT_ENOUGH_DATA, l, u))
          else if byteAt buf p3 ≠ 0 then some (.error (DBUS_INVALID_STRING_MISSING_NUL, l, u))
          else some (.ok (p3 + 1, l, u))
      else if 0 < claimed_len then
        match arrayLoopF (fun q => vrec (reader_recurse reader) false q) (p2 + claimed_len) f p2 with
        | none => none
        | some r =>
          if r.v ≠ DBUS_VALID then some (.error (r.v, l ++ r.chk, u ++ r.unchk))
          else if r.p ≠ p2 + claimed_len then
            some (.error (DBUS_INVALID_ARRAY_LENGTH_INCORRECT, l ++ r.chk, u ++ r.unchk))
          else some (.ok (r.p, l ++ r.chk, u ++ r.unchk))
      else some (.ok (p2, l, u))

/-- The `DBUS_TYPE_SIGNATURE` case of `validate_body_helper`: unaligned 1-byte
length, bound check (with the C unsigned cast semantics), grammar-validate
the bytes, require the terminating nul. -/
def stepSig (buf : DBusString) (p pend : Nat) : StepRes :=
  let claimed_len := byteAt buf p
  let p1 := p + 1
  if p1 ≤ pend ∧ claimed_len + 1 > pend - p1 then
    .error (DBUS_INVALID_SIGNATURE_LENGTH_OUT_OF_BOUNDS, [], [])
  else
    let str : DBusString := ⟨fun i => buf.data (p1 + i), claimed_len⟩
    if ¬ _dbus_validate_signature str 0 claimed_len then
      .error (DBUS_INVALID_BAD_SIGNATURE, [], [])
    else
      let p2 := p1 + claimed_len
      if byteAt buf p2 ≠ DBUS_TYPE_INVALID then
        .error (DBUS_INVALID_SIGNATURE_MISSING_NUL, [], [])
      else .ok (p2 + 1, [], [])

/-- The `DBUS_TYPE_VARIANT` case of `validate_body_helper`: 1-byte signature
length, signature bytes, nul, alignment padding (nul-checked) to the
contained type, then exactly one value of that signature. -/
def stepVariant (vrec : TypeReader → Bool → Nat → Option VRes)
    (buf : DBusString) (p pend : Nat) : Option StepRes :=
  let claimed_len := byteAt buf p
  let p1 := p + 1
  if p1 ≤ pend ∧ claimed_len + 1 > pend - p1 then
    some (.error (DBUS_INVALID_VARIANT_SIGNATURE_LENGTH_OUT_OF_BOUNDS, [], []))
  else
    let sig : DBusString := ⟨fun i => buf.data (p1 + i), claimed_len⟩
    if ¬ _dbus_validate_signature sig 0 claimed_len then
      some (.error (DBUS_INVALID_VARIANT_SIGNATURE_BAD, [], []))
    else
      let p2 := p1 + claimed_len
      if byteAt buf p2 ≠ DBUS_TYPE_INVALID then
        some (.error (DBUS_INVALID_VARIANT_SIGNATURE_MISSING_NUL, [], []))
      else
        let p3 := p2 + 1
        let contained_alignment := _dbus_type_get_alignment (first_type_in_signature sig)
        let a := alignTo p3 contained_alignment
        if a > pend then some (.error (DBUS_INVALID_NOT_ENOUGH_DATA, [], []))
        else
          match checkPadding buf p3 (a - p3) with
          | .error l => some (.error (DBUS_INVALID_ALIGNMENT_PADDING_NOT_NUL, l, []))
          | .ok l =>
            let sub : TypeReader := ⟨sig, 0⟩
            if reader_current_type sub = DBUS_TYPE_INVALID then
              some (.error (DBUS_INVALID_VARIANT_SIGNATURE_EMPTY, l, []))
            else
              match vrec sub false a with
              | none => none
              | some r =>
                if r.v ≠ DBUS_VALID then some (.error (r.v, l ++ r.chk, r.unchk))
                else if reader_current_type (reader_next sub) ≠ DBUS_TYPE_INVALID then
                  some (.error (DBUS_INVALID_VARIANT_SIGNATURE_SPECIFIES_MULTIPLE_VALUES,
                                l ++ r.chk, r.unchk))
                else some (.ok (r.p, l ++ r.chk, r.unchk))

/-- The `DBUS_TYPE_STRUCT` case of `validate_body_helper`: align to 8 with
nul checks, recurse into the field types in walk-to-end mode. -/
def stepStruct (vrec : TypeReader → Bool → Nat → Option VRes) (reader : TypeReader)
    (buf : DBusString) (p pend : Nat) : Option StepRes :=
  let a := alignTo p 8
  if a > pend then some (.error (DBUS_INVALID_NOT_ENOUGH_DATA, [], []))
  else
    match checkPadding buf p (a - p) with
    | .error l => some (.error (DBUS_INVALID_ALIGNMENT_PADDING_NOT_NUL, l, []))
    | .ok l =>
      match vrec (reader_recurse reader) true a with
      | none => none
      | some r =>
        if r.v ≠ DBUS_VALID then some (.error (r.v, l ++ r.chk, r.unchk))
        else some (.ok (r.p, l ++ r.chk, r.unchk))

/-- Dispatch on the current type code: the `switch (current_type)` of
`validate_body_helper`.  The default branch is a programmer-error assertion
(unreachable for a validated signature), modelled as undefined (`none`). -/
def stepFor (vrec : TypeReader → Bool → Nat → Option VRes) (f : Nat)
    (reader : TypeReader) (current_type byte_order : Nat) (buf : DBusString)
    (p pend : Nat) : Option StepRes :=
  if current_type = DBUS_TYPE_BYTE then some (.ok (p + 1, [], []))
  else if current_type = DBUS_TYPE_BOOLEAN ∨ current_type = DBUS_TYPE_INT32 ∨
          current_type = DBUS_TYPE_UINT32 ∨ current_type = DBUS_TYPE_INT64 ∨
          current_type = DBUS_TYPE_UINT64 ∨ current_type = DBUS_TYPE_DOUBLE then
    some (stepFixed current_type byte_order buf p pend)
  else if current_type = DBUS_TYPE_ARRAY ∨ current_type = DBUS_TYPE_STRING ∨
          current_type = DBUS_TYPE_OBJECT_PATH then
    stepLenPrefixed vrec f reader current_type byte_order buf p pend
  else if current_type = DBUS_TYPE_SIGNATURE then some (stepSig buf p pend)
  else if current_type = DBUS_TYPE_VARIANT then stepVariant vrec buf p pend
  else if current_type = DBUS_TYPE_STRUCT then stepStruct vrec reader buf p pend
  else none

/-- `validate_body_helper`: validate successive values described by `reader`
against the bytes of `[p, pend)`; `walk_reader_to_end` selects walking all
top-level types versus stopping after one value.  The extra fuel argument
makes the recursion (and the inner array loop) structurally terminating;
`none` means the fuel ran out or an unreachable programmer-error assertion
was hit, and never occurs for the runs the theorems below consider. -/
def validate_body_helper : Nat → TypeReader → Nat → Bool → DBusString → Nat → Nat → Option VRes
  | 0, _, _, _, _, _, _ => none
  | f + 1, reader, byte_order, walk_reader_to_end, buf, p, pend =>
    let current_type := reader_current_type reader
    if current_type = DBUS_TYPE_INVALID then some ⟨DBUS_VALID, p, [], []⟩
    else if p = pend then some ⟨DBUS_INVALID_NOT_ENOUGH_DATA, p, [], []⟩
    else
      match stepFor (fun rd wk q => validate_body_helper f rd byte_order wk buf q pend) f
              reader current_type byte_order buf p pend with
      | none => none
      | some (.error (v, c, u)) => some ⟨v, p, c, u⟩
      | some (.ok (p', c, u)) =>
        if p' > pend then some ⟨DBUS_INVALID_NOT_ENOUGH_DATA, p', c, u⟩
        else if walk_reader_to_end then
          match validate_body_helper f (reader_next reader) byte_order walk_reader_to_end buf p' pend with
          | none => none
          | some r => some ⟨r.v, r.p, c ++ r.chk, u ++ r.unchk⟩
        else some ⟨DBUS_VALID, p', c, u⟩

/-- `_dbus_validate_body_with_reason`: validate `[value_pos, value_pos+len)`
of `value_str` against `expected_signature` starting at
`expected_signature_start`.  The `bytes_remaining` out-parameter is modelled
as a flag plus an `Option Nat` in the result: `some k` means the location was
written with `k`, `none` that it was left untouched.  The final argument is
the fuel for `validate_body_helper`. -/
def _dbus_validate_body_with_reason (expected_signature : DBusString)
    (expected_signature_start byte_order : Nat) (bytes_remaining : Bool)
    (value_str : DBusString) (value_pos len fuel : Nat) :
    Option (DBusValidity × Option Nat) :=
  let reader : TypeReader := ⟨expected_signature, expected_signature_start⟩
  let pend := value_pos + len
  match validate_body_helper fuel reader byte_order true value_str value_pos pend with
  | none => none
  | some r =>
    if r.v ≠ DBUS_VALID then some (r.v, none)
    else if bytes_remaining then some (DBUS_VALID, some (pend - r.p))
    else if r.p < pend then some (DBUS_INVALID_TOO_MUCH_DATA, none)
    else some (DBUS_VALID, none)

/-- The object-path grammar exactly as the spec words it: non-empty, starts
with a slash, no two consecutive slashes, no trailing slash unless the whole
range is exactly the one-byte path, and every non-slash byte ASCII
alphanumeric or underscore. -/
def pathSpecHolds (bs : List Nat) : Prop :=
  bs ≠ [] ∧ bs.head? = some 47 ∧
  List.Chain' (fun a b => ¬(a = 47 ∧ b = 47)) bs ∧
  (bs.getLast? = some 47 → bs = [47]) ∧
  (∀ c ∈ bs, c ≠ 47 → VALID_NAME_CHARACTER c = true)

deriving instance DecidableEq for Except

/-- The padding invariant for a completed body-validation result: unless the
verdict is the alignment-padding error, every byte position recorded as a
nul-checked alignment skip holds a zero byte. -/
def PadInv (buf : DBusString) (r : VRes) : Prop :=
  r.v ≠ DBUS_INVALID_ALIGNMENT_PADDING_NOT_NUL → ∀ i ∈ r.chk, byteAt buf i = 0

/-- The padding invariant for the outcome of one switch case. -/
def stepPadInv (buf : DBusString) : StepRes → Prop
  | .error (v, c, _) =>
    v ≠ DBUS_INVALID_ALIGNMENT_PADDING_NOT_NUL → ∀ i ∈ c, byteAt buf i = 0
  | .ok (_, c, _) => ∀ i ∈ c, byteAt buf i = 0

/-- C1: the claim requires every fixed-width value's full width to lie within
`[p, end)` before its bytes are accessed, and `p` never to pass `end`.  The
code only checks that the aligned address itself is below `end` before the
boolean case reads its full 4-byte word, so the verdict on a 2-byte body for
signature "b" depends on the 2 bytes that lie beyond `end`: with zero bytes
there the run fails with not-enough-data (after `p` has been advanced to
`end + 2`), while with a non-zero byte there it fails with
boolean-not-zero-or-one, proving the 4-byte read happened without the full
width being available. -/
theorem C1_boolean_word_read_past_end :
    _dbus_validate_body_with_reason (mkStr [98]) 0 108 false (mkStr [0, 0]) 0 2 10 =
      some (DBUS_INVALID_NOT_ENOUGH_DATA, none) ∧
    _dbus_validate_body_with_reason (mkStr [98]) 0 108 false (mkStr [0, 0, 2, 0]) 0 2 10 =
      some (DBUS_INVALID_BOOLEAN_NOT_ZERO_OR_ONE, none) ∧
    byteAt (mkStr [0, 0]) 0 = byteAt (mkStr [0, 0, 2, 0]) 0 ∧
    byteAt (mkStr [0, 0]) 1 = byteAt (mkStr [0, 0, 2, 0]) 1 := by
  refine ⟨by decide, by decide, by decide, by decide⟩

/-- C2 counterexample: the one-byte bus name consisting of just the colon is
accepted (the unique-name loop body never runs), contradicting the claim
that it is invalid. -/
theorem C2_colon_alone_is_accepted :
    _dbus_validate_bus_name (mkStr [58]) 0 1 = true := by decide

/-- C2 (amended): the bus name of colon, digit one, dot, digit five is valid;
the one-byte bus name of just the colon is ALSO valid; and for every
non-empty range the result is the dispatch on the first byte — unique-name
validation when it is the colon, interface validation otherwise. -/
theorem C2_bus_name_dispatch :
    _dbus_validate_bus_name (mkStr [58, 49, 46, 53]) 0 4 = true ∧
    _dbus_validate_bus_name (mkStr [58]) 0 1 = true ∧
    ∀ (str : DBusString) (start len : Nat), 0 < len →
      _dbus_validate_bus_name str start len =
        (if byteAt str start = 58 then _dbus_validate_unique_name str start len
         else _dbus_validate_interface str start len) := by
  refine ⟨by decide, by decide, ?_⟩
  intro str start len h
  unfold _dbus_validate_bus_name
  rw [if_neg (by omega)]

/-- C2 witness: the dispatch equation applied to a concrete interface-shaped
bus name. -/
theorem C2_bus_name_dispatch_witness :
    _dbus_validate_bus_name (mkStr [97, 46, 98]) 0 3 =
      (if byteAt (mkStr [97, 46, 98]) 0 = 58 then
        _dbus_validate_unique_name (mkStr [97, 46, 98]) 0 3
       else _dbus_validate_interface (mkStr [97, 46, 98]) 0 3) :=
  C2_bus_name_dispatch.2.2 (mkStr [97, 46, 98]) 0 3 (by decide)

/-- C5: the array-depth counter counts consecutive array markers: a step
increments it on the array code and resets it to 0 on any other accepted
code; a step on the array code when the depth has reached the maximum
returns the exceeded-maximum-array-recursion code; a scan ending with a
positive array depth yields missing-array-element-type; the one-byte
signature "a" yields missing-array-element-type; 33 consecutive array
markers are rejected while two separated runs of 32 are accepted. -/
theorem C5_array_depth_consecutive :
    (∀ (st : SigSt) (c : Nat) (st' : SigSt), sigStep st c = .ok st' →
        st'.array_depth = if c = DBUS_TYPE_ARRAY then st.array_depth + 1 else 0) ∧
    (∀ st : SigSt, DBUS_MAXIMUM_TYPE_RECURSION_DEPTH ≤ st.array_depth →
        sigStep st DBUS_TYPE_ARRAY = .error DBUS_INVALID_EXCEEDED_MAXIMUM_ARRAY_RECURSION) ∧
    (∀ st : SigSt, 0 < st.array_depth →
        sigFinish st = DBUS_INVALID_MISSING_ARRAY_ELEMENT_TYPE) ∧
    _dbus_validate_signature_with_reason (mkStr [97]) 0 1 =
      DBUS_INVALID_MISSING_ARRAY_ELEMENT_TYPE ∧
    _dbus_validate_signature_with_reason (mkStr (List.replicate 33 97 ++ [105])) 0 34 =
      DBUS_INVALID_EXCEEDED_MAXIMUM_ARRAY_RECURSION ∧
    _dbus_validate_signature_with_reason
        (mkStr (List.replicate 32 97 ++ [105] ++ List.replicate 32 97 ++ [105])) 0 66 =
      DBUS_VALID := by
  refine ⟨?_, ?_, ?_, by decide, by decide, by decide⟩
  · intro st c st' h
    unfold sigStep at h
    split_ifs at h
    all_goals
      first
      | exact Except.noConfusion h
      | (cases h
         simp only [DBUS_TYPE_BYTE, DBUS_TYPE_BOOLEAN, DBUS_TYPE_INT32, DBUS_TYPE_UINT32,
           DBUS_TYPE_INT64, DBUS_TYPE_UINT64, DBUS_TYPE_DOUBLE, DBUS_TYPE_STRING,
           DBUS_TYPE_OBJECT_PATH, DBUS_TYPE_SIGNATURE, DBUS_TYPE_VARIANT, DBUS_TYPE_ARRAY,
           DBUS_STRUCT_BEGIN_CHAR, DBUS_STRUCT_END_CHAR] at *
         split_ifs <;> simp_all)
  · intro st h
    unfold sigStep
    rw [if_neg (by decide), if_pos rfl, if_pos (by
      simp only [DBUS_MAXIMUM_TYPE_RECURSION_DEPTH] at h ⊢
      omega)]
  · intro st h
    unfold sigFinish
    rw [if_pos h]

/-- C5 witness: the step facts applied at concrete states. -/
theorem C5_array_depth_consecutive_witness :
    ((⟨0, 6, 97⟩ : SigSt).array_depth =
       if (97 : Nat) = DBUS_TYPE_ARRAY then (⟨0, 5, 98⟩ : SigSt).array_depth + 1 else 0) ∧
    sigStep ⟨0, 32, 97⟩ DBUS_TYPE_ARRAY =
      .error DBUS_INVALID_EXCEEDED_MAXIMUM_ARRAY_RECURSION ∧
    sigFinish ⟨0, 1, 97⟩ = DBUS_INVALID_MISSING_ARRAY_ELEMENT_TYPE :=
  ⟨C5_array_depth_consecutive.1 ⟨0, 5, 98⟩ 97 ⟨0, 6, 97⟩ (by decide),
   C5_array_depth_consecutive.2.1 ⟨0, 32, 97⟩ (by decide),
   C5_array_depth_consecutive.2.2.1 ⟨0, 1, 97⟩ (by decide)⟩

/-- C6 counterexample: the two-byte signature of struct-begin then the array
marker reaches the end of the scan with struct depth 1, yet the result is
missing-array-element-type, not struct-started-but-not-ended (the array
check precedes the struct check post-scan). -/
theorem C6_struct_depth_masked_by_pending_array :
    sigStep ⟨0, 0, 0⟩ 40 = .ok ⟨1, 0, 40⟩ ∧
    sigStep ⟨1, 0, 40⟩ 97 = .ok ⟨1, 1, 97⟩ ∧
    sigFinish ⟨1, 1, 97⟩ = DBUS_INVALID_MISSING_ARRAY_ELEMENT_TYPE ∧
    _dbus_validate_signature_with_reason (mkStr [40, 97]) 0 2 =
      DBUS_INVALID_MISSING_ARRAY_ELEMENT_TYPE ∧
    DBUS_INVALID_MISSING_ARRAY_ELEMENT_TYPE ≠ DBUS_INVALID_STRUCT_STARTED_BUT_NOT_ENDED := by
  refine ⟨by decide, by decide, by decide, by decide, by decide⟩

/-- C6 (amended): struct-end with no open struct is
struct-ended-but-not-started; struct-end immediately after struct-begin is
struct-has-no-fields; a scan ending with positive struct depth is
struct-started-but-not-ended provided no array marker is pending (a pending
array marker takes priority with missing-array-element-type); the one-byte
signature of the close paren and the two-byte signature of the paren pair
give the two struct errors. -/
theorem C6_struct_rules :
    (∀ st : SigSt, st.struct_depth = 0 →
        sigStep st DBUS_STRUCT_END_CHAR = .error DBUS_INVALID_STRUCT_ENDED_BUT_NOT_STARTED) ∧
    (∀ st : SigSt, 0 < st.struct_depth → st.last = DBUS_STRUCT_BEGIN_CHAR →
        sigStep st DBUS_STRUCT_END_CHAR = .error DBUS_INVALID_STRUCT_HAS_NO_FIELDS) ∧
    (∀ st : SigSt, 0 < st.struct_depth → st.array_depth = 0 →
        sigFinish st = DBUS_INVALID_STRUCT_STARTED_BUT_NOT_ENDED) ∧
    _dbus_validate_signature_with_reason (mkStr [41]) 0 1 =
      DBUS_INVALID_STRUCT_ENDED_BUT_NOT_STARTED ∧
    _dbus_validate_signature_with_reason (mkStr [40, 41]) 0 2 =
      DBUS_INVALID_STRUCT_HAS_NO_FIELDS := by
  refine ⟨?_, ?_, ?_, by decide, by decide⟩
  · intro st h
    unfold sigStep
    rw [if_neg (by decide), if_neg (by decide), if_neg (by decide), if_pos rfl, if_pos h]
  · intro st h h2
    unfold sigStep
    rw [if_neg (by decide), if_neg (by decide), if_neg (by decide), if_pos rfl,
      if_neg (by omega), if_pos h2]
  · intro st h h2
    unfold sigFinish
    rw [if_neg (by omega), if_pos h]

/-- C6 witness: the step and post-scan facts applied at concrete states. -/
theorem C6_struct_rules_witness :
    sigStep ⟨0, 0, 105⟩ DBUS_STRUCT_END_CHAR =
      .error DBUS_INVALID_STRUCT_ENDED_BUT_NOT_STARTED ∧
    sigStep ⟨2, 0, 40⟩ DBUS_STRUCT_END_CHAR = .error DBUS_INVALID_STRUCT_HAS_NO_FIELDS ∧
    sigFinish ⟨1, 0, 105⟩ = DBUS_INVALID_STRUCT_STARTED_BUT_NOT_ENDED :=
  ⟨C6_struct_rules.1 ⟨0, 0, 105⟩ (by decide),
   C6_struct_rules.2.1 ⟨2, 0, 40⟩ (by decide) (by decide),
   C6_struct_rules.2.2.1 ⟨1, 0, 105⟩ (by decide) (by decide)⟩

/-- Frame lemma for the signature scan loop: the scan of `n` bytes starting
at `p` reads only the bytes at `p, ..., p+n-1`. -/
theorem sigScan_frame (n : Nat) : ∀ (p : Nat) (st : SigSt) (s1 s2 : DBusString),
    (∀ i, i < n → byteAt s1 (p + i) = byteAt s2 (p + i)) →
    sigScan s1 p n st = sigScan s2 p n st := by
  induction n with
  | zero => intro p st s1 s2 _; rfl
  | succ m ih =>
    intro p st s1 s2 h
    have h0 : byteAt s1 p = byteAt s2 p := by
      have := h 0 (by omega)
      simpa using this
    simp only [sigScan, h0]
    cases sigStep st (byteAt s2 p) with
    | error v => rfl
    | ok st' =>
      refine ih (p + 1) st' s1 s2 (fun i hi => ?_)
      have e : p + 1 + i = p + (i + 1) := by omega
      rw [e]
      exact h (i + 1) (by omega)

/-- C8: `_dbus_validate_signature_with_reason` terminates on every input (it
is a total function, defined by structural recursion on the remaining
length, with no call-stack recursion) and reads only the bytes of
`[type_pos, type_pos + len)`: two buffers agreeing on that range (whatever
their other bytes and lengths) get the same verdict. -/
theorem C8_signature_validator_reads_only_range :
    ∀ (s1 s2 : DBusString) (type_pos len : Nat),
      (∀ i, i < len → byteAt s1 (type_pos + i) = byteAt s2 (type_pos + i)) →
      _dbus_validate_signature_with_reason s1 type_pos len =
        _dbus_validate_signature_with_reason s2 type_pos len := by
  intro s1 s2 type_pos len h
  unfold _dbus_validate_signature_with_reason
  split
  · rfl
  · exact sigScan_frame len type_pos ⟨0, 0, DBUS_TYPE_INVALID⟩ s1 s2 h

/-- C8 witness: two buffers agreeing on a 2-byte range but differing beyond
it validate identically. -/
theorem C8_signature_validator_reads_only_range_witness :
    _dbus_validate_signature_with_reason (mkStr [105, 105]) 0 2 =
      _dbus_validate_signature_with_reason ⟨fun i => [105, 105, 99].getD i 0, 2⟩ 0 2 :=
  C8_signature_validator_reads_only_range (mkStr [105, 105])
    ⟨fun i => [105, 105, 99].getD i 0, 2⟩ 0 2 (by decide)

/-- C9: `_dbus_validate_body_with_reason` writes through `bytes_remaining`
only when it returns `DBUS_VALID`: whenever it returns a failure code, the
modelled out-location is untouched (`none`), for either value of the
`bytes_remaining` flag. -/
theorem C9_bytes_remaining_untouched_on_failure :
    ∀ (sig : DBusString) (sig_start byte_order : Nat) (flag : Bool)
      (value_str : DBusString) (value_pos len fuel : Nat)
      (v : DBusValidity) (w : Option Nat),
      _dbus_validate_body_with_reason sig sig_start byte_order flag value_str value_pos len fuel
        = some (v, w) →
      v ≠ DBUS_VALID → w = none := by
  intro sig sig_start byte_order flag value_str value_pos len fuel v w h hv
  simp only [_dbus_validate_body_with_reason] at h
  cases hrun : validate_body_helper fuel ⟨sig, sig_start⟩ byte_order true value_str value_pos
      (value_pos + len) with
  | none => rw [hrun] at h; exact Option.noConfusion h
  | some r =>
    rw [hrun] at h
    simp only [] at h
    split_ifs at h with h1 h2 h3
    · exact (Prod.mk.injEq _ _ _ _ ▸ Option.some.inj h).2.symm
    · exact absurd ((Prod.mk.injEq _ _ _ _ ▸ Option.some.inj h).1 ▸ hv) (by simp)
    · exact (Prod.mk.injEq _ _ _ _ ▸ Option.some.inj h).2.symm
    · exact absurd ((Prod.mk.injEq _ _ _ _ ▸ Option.some.inj h).1 ▸ hv) (by simp)

/-- C9 witness: a failing run (signature int32 with an empty body, lenient
mode) leaves the out-location untouched. -/
theorem C9_bytes_remaining_untouched_on_failure_witness :
    (none : Option Nat) = none :=
  C9_bytes_remaining_untouched_on_failure (mkStr [105]) 0 108 true (mkStr []) 0 0 10
    DBUS_INVALID_NOT_ENOUGH_DATA none (by decide) (by decide)

/-- C4: trailing bytes are reported, not rejected, exactly when
`bytes_remaining` is requested: whenever the body walk succeeds, the lenient
call stores the count of unconsumed bytes and returns `DBUS_VALID`, while
the strict call returns too-much-data if any byte is unconsumed. -/
theorem C4_trailing_bytes_lenient_vs_strict :
    ∀ (sig : DBusString) (sig_start byte_order : Nat) (value_str : DBusString)
      (value_pos len fuel : Nat) (r : VRes),
      validate_body_helper fuel ⟨sig, sig_start⟩ byte_order true value_str value_pos
          (value_pos + len) = some r →
      r.v = DBUS_VALID →
      _dbus_validate_body_with_reason sig sig_start byte_order true value_str value_pos len fuel
          = some (DBUS_VALID, some (value_pos + len - r.p)) ∧
      (r.p < value_pos + len →
        _dbus_validate_body_with_reason sig sig_start byte_order false value_str value_pos len fuel
            = some (DBUS_INVALID_TOO_MUCH_DATA, none)) := by
  intro sig sig_start byte_order value_str value_pos len fuel r hrun hv
  constructor
  · simp only [_dbus_validate_body_with_reason]
    rw [hrun]
    simp [hv]
  · intro hlt
    simp only [_dbus_validate_body_with_reason]
    rw [hrun]
    simp [hv, hlt]

/-- C4 witness: signature byte against a 2-byte body consumes 1 byte; the
lenient call reports 1 remaining byte, the strict call fails with
too-much-data. -/
theorem C4_trailing_bytes_lenient_vs_strict_witness :
    _dbus_validate_body_with_reason (mkStr [121]) 0 108 true (mkStr [7, 9]) 0 2 10
        = some (DBUS_VALID, some 1) ∧
    _dbus_validate_body_with_reason (mkStr [121]) 0 108 false (mkStr [7, 9]) 0 2 10
        = some (DBUS_INVALID_TOO_MUCH_DATA, none) :=
  ⟨(C4_trailing_bytes_lenient_vs_strict (mkStr [121]) 0 108 (mkStr [7, 9]) 0 2 10
      ⟨DBUS_VALID, 1, [], []⟩ (by decide) rfl).1,
   (C4_trailing_bytes_lenient_vs_strict (mkStr [121]) 0 108 (mkStr [7, 9]) 0 2 10
      ⟨DBUS_VALID, 1, [], []⟩ (by decide) rfl).2 (by decide)⟩

/-- C10: the path, interface and member validators reject an empty or
out-of-range request without reading any byte: for `len = 0` or a range
extending past the string end the result is false for every data function,
so no byte content can be accessed. -/
theorem C10_range_checked_before_any_read :
    ∀ (d : Nat → Nat) (L start len : Nat),
      len = 0 ∨ len > L - start →
      _dbus_validate_path ⟨d, L⟩ start len = false ∧
      _dbus_validate_interface ⟨d, L⟩ start len = false ∧
      _dbus_validate_member ⟨d, L⟩ start len = false := by
  intro d L start len h
  rcases h with h | h
  · subst h
    refine ⟨?_, ?_, ?_⟩
    · unfold _dbus_validate_path
      rw [if_neg (by omega), if_pos rfl]
    · unfold _dbus_validate_interface
      rw [if_neg (by omega), if_neg (by simp [DBUS_MAXIMUM_NAME_LENGTH]), if_pos rfl]
    · unfold _dbus_validate_member
      rw [if_neg (by omega), if_neg (by simp [DBUS_MAXIMUM_NAME_LENGTH]), if_pos rfl]
  · refine ⟨?_, ?_, ?_⟩
    · unfold _dbus_validate_path
      rw [if_pos h]
    · unfold _dbus_validate_interface
      rw [if_pos h]
    · unfold _dbus_validate_member
      rw [if_pos h]

/-- C10 witness: a range of five bytes starting at index 1 of a three-byte
string is rejected by all three validators. -/
theorem C10_range_checked_before_any_read_witness :
    _dbus_validate_path ⟨fun _ => 47, 3⟩ 1 5 = false ∧
    _dbus_validate_interface ⟨fun _ => 47, 3⟩ 1 5 = false ∧
    _dbus_validate_member ⟨fun _ => 47, 3⟩ 1 5 = false :=
  C10_range_checked_before_any_read (fun _ => 47) 3 1 5 (by omega)

/-- A byte accepted by `VALID_NAME_CHARACTER` is never the slash. -/
theorem validNameChar_ne_slash (c : Nat) (h : VALID_NAME_CHARACTER c = true) : c ≠ 47 := by
  unfold VALID_NAME_CHARACTER at h
  rw [decide_eq_true_iff] at h
  omega

/-- The path scan loop succeeds exactly when: no byte right after a slash is
again a slash (including the virtual slash encoded by `gap = 1`), and every
byte is a slash or a valid name character. -/
theorem pathLoop_isSome_iff : ∀ (rest : List Nat) (gap : Nat), 1 ≤ gap →
    ((pathLoop rest gap).isSome ↔
      ((gap = 1 → rest.head? ≠ some 47) ∧
       List.Chain' (fun a b => ¬(a = 47 ∧ b = 47)) rest ∧
       ∀ c ∈ rest, c = 47 ∨ VALID_NAME_CHARACTER c = true)) := by
  intro rest
  induction rest with
  | nil =>
    intro gap _
    simp [pathLoop]
  | cons c tl ih =>
    intro gap hgap
    by_cases hc : c = 47
    · subst hc
      by_cases hg : gap < 2
      · have h1 : gap = 1 := by omega
        subst h1
        have hred : pathLoop (47 :: tl) 1 = none := by simp [pathLoop]
        rw [hred]
        simp
      · have hred : pathLoop (47 :: tl) gap = pathLoop tl 1 := by simp [pathLoop, hg]
        have hgap1 : ¬ gap = 1 := by omega
        rw [hred, ih 1 le_rfl]
        cases tl with
        | nil => simp [hgap1]
        | cons d tl2 =>
          simp only [List.chain'_cons, List.head?_cons, List.mem_cons, ne_eq,
            Option.some.injEq, forall_eq_or_imp, hgap1, false_implies, true_and,
            true_implies]
          tauto
    · by_cases hv : VALID_NAME_CHARACTER c = true
      · have hred : pathLoop (c :: tl) gap = pathLoop tl (gap + 1) := by
          simp [pathLoop, hc, hv]
        have hgap1 : ¬ gap + 1 = 1 := by omega
        rw [hred, ih (gap + 1) (by omega)]
        cases tl with
        | nil => simp [hgap1, hc, hv]
        | cons d tl2 =>
          simp only [List.chain'_cons, List.head?_cons, List.mem_cons, ne_eq,
            Option.some.injEq, forall_eq_or_imp, hgap1, false_implies, true_and,
            true_implies, hc, hv]
          tauto
      · have hred : pathLoop (c :: tl) gap = none := by simp [pathLoop, hc, hv]
        rw [hred]
        simp only [Option.isSome_none, Bool.false_eq_true, false_iff]
        rintro ⟨-, -, hcs⟩
        rcases hcs c (by simp) with h | h
        · exact hc h
        · exact hv h

/-- On success the path scan loop returns a positive final distance, and
that distance is 1 exactly when the last byte examined was a slash (or
nothing was examined and the initial distance was already 1). -/
theorem pathLoop_final_gap : ∀ (rest : List Nat) (gap g : Nat), 1 ≤ gap →
    pathLoop rest gap = some g →
    (1 ≤ g ∧ (g = 1 ↔ (if rest = [] then gap = 1 else rest.getLast? = some 47))) := by
  intro rest
  induction rest with
  | nil =>
    intro gap g hgap h
    simp only [pathLoop] at h
    cases h
    simp [hgap]
  | cons c tl ih =>
    intro gap g hgap h
    by_cases hc : c = 47
    · subst hc
      simp only [pathLoop, if_pos rfl] at h
      by_cases hg : gap < 2
      · rw [if_pos hg] at h; exact Option.noConfusion h
      · rw [if_neg hg] at h
        obtain ⟨hg1, hiff⟩ := ih 1 g le_rfl h
        refine ⟨hg1, ?_⟩
        cases tl with
        | nil => simpa using hiff
        | cons d tl2 =>
          rw [hiff]
          simp [List.getLast?_cons_cons]
    · by_cases hv : VALID_NAME_CHARACTER c = true
      · simp only [pathLoop, if_neg hc, if_pos hv] at h
        obtain ⟨hg1, hiff⟩ := ih (gap + 1) g (by omega) h
        refine ⟨hg1, ?_⟩
        cases tl with
        | nil =>
          simp only [if_pos rfl] at hiff
          rw [hiff]
          simp [hc]
          omega
        | cons d tl2 =>
          rw [hiff]
          simp [List.getLast?_cons_cons]
      · simp only [pathLoop, if_neg hc, if_neg hv] at h
        exact Option.noConfusion h

/-- `rangeBytes` of a concrete byte list over its full range is the list. -/
theorem rangeBytes_mkStr (bs : List Nat) (h : ∀ c ∈ bs, c < 256) :
    rangeBytes (mkStr bs) 0 bs.length = bs := by
  apply List.ext_getElem
  · simp [rangeBytes]
  · intro i h1 h2
    simp only [rangeBytes, mkStr, byteAt, List.getElem_map, List.getElem_range, Nat.zero_add]
    rw [List.getD_eq_getElem bs 0 h2]
    exact Nat.mod_eq_of_lt (h _ (List.getElem_mem h2))

/-- C7: `_dbus_validate_path` accepts a byte range exactly when it is
non-empty, starts with a slash, has no two consecutive slashes, does not end
with a slash unless it is exactly the one-byte root path, and every
non-slash byte is ASCII alphanumeric or underscore; in particular the root
path alone is valid while the double slash and a trailing slash are not. -/
theorem C7_path_characterization :
    (∀ bs : List Nat, (∀ c ∈ bs, c < 256) →
       (_dbus_validate_path (mkStr bs) 0 bs.length = true ↔ pathSpecHolds bs)) ∧
    _dbus_validate_path (mkStr [47]) 0 1 = true ∧
    _dbus_validate_path (mkStr [47, 47]) 0 2 = false ∧
    _dbus_validate_path (mkStr [47, 97, 47]) 0 3 = false := by
  refine ⟨?_, by decide, by decide, by decide⟩
  intro bs hlt
  simp only [_dbus_validate_path]
  rw [rangeBytes_mkStr bs hlt]
  rw [if_neg (by simp [mkStr])]
  by_cases hnil : bs = []
  · subst hnil
    simp [pathSpecHolds]
  · rw [if_neg (fun h => hnil (List.length_eq_zero.mp h))]
    cases bs with
    | nil => exact absurd rfl hnil
    | cons c rest =>
      simp only [List.headD_cons, List.tail_cons]
      by_cases hc : c = 47
      · subst hc
        rw [if_neg (by simp)]
        cases hp : pathLoop rest 1 with
        | none =>
          simp only [Bool.false_eq_true, false_iff]
          rintro ⟨-, -, hch, -, hcs⟩
          have hsome : (pathLoop rest 1).isSome := by
            rw [pathLoop_isSome_iff rest 1 le_rfl]
            obtain ⟨hh, hch'⟩ := List.chain'_cons'.mp hch
            refine ⟨fun _ hhead => ?_, hch', fun x hx => ?_⟩
            · cases hr : rest.head? with
              | none => rw [hr] at hhead; exact Option.noConfusion hhead
              | some b =>
                rw [hr] at hhead
                have hb := hh b hr
                exact hb ⟨rfl, by simpa using hhead⟩
            · by_cases hx47 : x = 47
              · exact Or.inl hx47
              · exact Or.inr (hcs x (by simp [hx]) hx47)
          rw [hp] at hsome
          simp at hsome
        | some g =>
          simp only [hp]
          obtain ⟨hg1, hgiff⟩ := pathLoop_final_gap rest 1 g le_rfl hp
          obtain ⟨hh, hch, hcs⟩ := (pathLoop_isSome_iff rest 1 le_rfl).mp (by rw [hp]; rfl)
          constructor
          · intro hres
            have hcond : ¬(g < 2 ∧ (47 :: rest).length > 1) := by
              intro hcon
              rw [if_pos hcon] at hres
              exact absurd hres (by simp)
            refine ⟨by simp, by simp, ?_, ?_, ?_⟩
            · rw [List.chain'_cons']
              refine ⟨fun b hb => ?_, hch⟩
              rintro ⟨-, hb47⟩
              subst hb47
              exact hh rfl hb
            · intro hlast
              cases rest with
              | nil => rfl
              | cons d tl =>
                exfalso
                rw [List.getLast?_cons_cons] at hlast
                have hg : g = 1 := by
                  rw [hgiff]
                  simpa using hlast
                exact hcond ⟨by omega, by simp⟩
            · intro x hx hx47
              rcases List.mem_cons.mp hx with hx | hx
              · exact absurd hx hx47
              · rcases hcs x hx with h | h
                · exact absurd h hx47
                · exact h
          · rintro ⟨-, -, -, hlast2, -⟩
            have hcond : ¬(g < 2 ∧ (47 :: rest).length > 1) := by
              rintro ⟨hglt, hlen⟩
              have hg : g = 1 := by omega
              rw [hgiff] at hg
              cases rest with
              | nil => simp at hlen
              | cons d tl =>
                simp only [if_neg (by simp : ¬ (d :: tl : List Nat) = [])] at hg
                have hl47 : (47 :: d :: tl).getLast? = some 47 := by
                  rw [List.getLast?_cons_cons]
                  exact hg
                have := hlast2 hl47
                simp at this
            rw [if_neg hcond]
      · rw [if_pos hc]
        simp only [Bool.false_eq_true, false_iff]
        rintro ⟨-, hhead, -⟩
        exact hc (by simpa using hhead)

/-- C7 witness: the characterization applied to a concrete two-segment
path. -/
theorem C7_path_characterization_witness :
    _dbus_validate_path (mkStr [47, 97, 47, 98]) 0 4 = true ↔
      pathSpecHolds [47, 97, 47, 98] :=
  C7_path_characterization.1 [47, 97, 47, 98] (by decide)

/-- When the padding scan succeeds, every recorded position holds a zero
byte. -/
theorem checkPadding_ok_zero (buf : DBusString) :
    ∀ (g p : Nat) (l : List Nat), checkPadding buf p g = .ok l →
      ∀ i ∈ l, byteAt buf i = 0 := by
  intro g
  induction g with
  | zero =>
    intro p l h i hi
    simp only [checkPadding] at h
    cases h
    simp at hi
  | succ m ih =>
    intro p l h i hi
    simp only [checkPadding] at h
    split_ifs at h with h0
    cases hrec : checkPadding buf (p + 1) m with
    | error l2 => rw [hrec] at h; exact Except.noConfusion h
    | ok l2 =>
      rw [hrec] at h
      cases h
      rcases List.mem_cons.mp hi with hi | hi
      · subst hi
        by_contra hne
        exact h0 hne
      · exact ih (p + 1) l2 hrec i hi

/-- The array-element loop preserves the padding invariant of its element
validator. -/
theorem arrayLoopF_padinv (buf : DBusString) (elemF : Nat → Option VRes)
    (array_end : Nat)
    (helem : ∀ q r, elemF q = some r → PadInv buf r) :
    ∀ (f p : Nat) (r : VRes), arrayLoopF elemF array_end f p = some r → PadInv buf r := by
  intro f
  induction f with
  | zero =>
    intro p r h
    exact Option.noConfusion h
  | succ m ih =>
    intro p r h
    simp only [arrayLoopF] at h
    split_ifs at h with hlt
    · split at h
      · exact Option.noConfusion h
      · next r1 he =>
        have hpad1 : PadInv buf r1 := helem p r1 he
        by_cases hv1 : r1.v = DBUS_VALID
        · rw [if_neg (not_not_intro hv1)] at h
          split at h
          · exact Option.noConfusion h
          · next r2 hrec =>
            have hpad2 : PadInv buf r2 := ih r1.p r2 hrec
            have hz1 : ∀ i ∈ r1.chk, byteAt buf i = 0 :=
              hpad1 (by rw [hv1]; simp)
            cases h
            intro hne i hi
            simp only [List.mem_append] at hi
            rcases hi with hi | hi
            · exact hz1 i hi
            · exact hpad2 hne i hi
        · rw [if_pos hv1] at h
          cases h
          exact hpad1
    · cases h
      intro _ i hi
      simp at hi

/-- The fixed-width case satisfies the padding invariant. -/
theorem stepFixed_padinv (buf : DBusString) (ct bo p pend : Nat) :
    stepPadInv buf (stepFixed ct bo buf p pend) := by
  simp only [stepFixed]
  split
  · intro _ i hi
    simp at hi
  · split
    · next l hcp =>
      intro hne
      exact absurd rfl hne
    · next l hcp =>
      split
      · intro _ i hi
        exact checkPadding_ok_zero buf _ p l hcp i hi
      · exact checkPadding_ok_zero buf _ p l hcp

/-- The signature case records no padding, so it satisfies the invariant. -/
theorem stepSig_padinv (buf : DBusString) (p pend : Nat) :
    stepPadInv buf (stepSig buf p pend) := by
  simp only [stepSig]
  split_ifs <;> simp [stepPadInv]

set_option maxHeartbeats 2000000 in
/-- The array/string/object-path case satisfies the padding invariant,
provided the recursive validator does. -/
theorem stepLenPrefixed_padinv (buf : DBusString)
    (vrec : TypeReader → Bool → Nat → Option VRes) (f : Nat) (reader : TypeReader)
    (ct bo p pend : Nat)
    (hv : ∀ rd wk q r, vrec rd wk q = some r → PadInv buf r) :
    ∀ s, stepLenPrefixed vrec f reader ct bo buf p pend = some s → stepPadInv buf s := by
  intro s h
  simp only [stepLenPrefixed] at h
  split at h
  · cases h
    intro _ i hi
    simp at hi
  · split at h
    · next l hcp =>
      cases h
      intro hne
      exact absurd rfl hne
    · next l hcp =>
      have hz : ∀ i ∈ l, byteAt buf i = 0 := checkPadding_ok_zero buf _ p l hcp
      split at h
      · cases h
        intro _ i hi
        exact hz i hi
      · split at h
        · split at h
          · cases h
            intro _ i hi
            exact hz i hi
          · split at h
            · cases h
              intro _ i hi
              exact hz i hi
            · split at h
              · cases h
                intro _ i hi
                exact hz i hi
              · cases h
                intro i hi
                exact hz i hi
        · split at h
          · split at h
            · cases h
              intro _ i hi
              exact hz i hi
            · split at h
              · cases h
                intro _ i hi
                exact hz i hi
              · split at h
                · cases h
                  intro _ i hi
                  exact hz i hi
                · cases h
                  intro i hi
                  exact hz i hi
          · split at h
            · split at h
              · exact Option.noConfusion h
              · next r2 hrec =>
                have hpad2 : PadInv buf r2 :=
                  arrayLoopF_padinv buf _ _ (fun q rr hq => hv _ _ q rr hq) f _ r2 hrec
                by_cases hv2 : r2.v = DBUS_VALID
                · have hz2 : ∀ i ∈ r2.chk, byteAt buf i = 0 := hpad2 (by rw [hv2]; simp)
                  rw [if_neg (not_not_intro hv2)] at h
                  split at h
                  · cases h
                    intro _ i hi
                    rcases List.mem_append.mp hi with hi | hi
                    · exact hz i hi
                    · exact hz2 i hi
                  · cases h
                    intro i hi
                    rcases List.mem_append.mp hi with hi | hi
                    · exact hz i hi
                    · exact hz2 i hi
                · rw [if_pos hv2] at h
                  cases h
                  intro hne i hi
                  rcases List.mem_append.mp hi with hi | hi
                  · exact hz i hi
                  · exact hpad2 hne i hi
            · cases h
              intro i hi
              exact hz i hi

set_option maxHeartbeats 2000000 in
/-- The variant case satisfies the padding invariant, provided the recursive
validator does. -/
theorem stepVariant_padinv (buf : DBusString)
    (vrec : TypeReader → Bool → Nat → Option VRes) (p pend : Nat)
    (hv : ∀ rd wk q r, vrec rd wk q = some r → PadInv buf r) :
    ∀ s, stepVariant vrec buf p pend = some s → stepPadInv buf s := by
  intro s h
  simp only [stepVariant] at h
  split at h
  · cases h
    intro _ i hi
    simp at hi
  · split at h
    · cases h
      intro _ i hi
      simp at hi
    · split at h
      · cases h
        intro _ i hi
        simp at hi
      · split at h
        · cases h
          intro _ i hi
          simp at hi
        · split at h
          · next l hcp =>
            cases h
            intro hne
            exact absurd rfl hne
          · next l hcp =>
            have hz : ∀ i ∈ l, byteAt buf i = 0 := checkPadding_ok_zero buf _ _ l hcp
            split at h
            · cases h
              intro _ i hi
              exact hz i hi
            · split at h
              · exact Option.noConfusion h
              · next r2 hrec =>
                have hpad2 : PadInv buf r2 := hv _ _ _ r2 hrec
                by_cases hv2 : r2.v = DBUS_VALID
                · have hz2 : ∀ i ∈ r2.chk, byteAt buf i = 0 := hpad2 (by rw [hv2]; simp)
                  rw [if_neg (not_not_intro hv2)] at h
                  split at h
                  · cases h
                    intro _ i hi
                    rcases List.mem_append.mp hi with hi | hi
                    · exact hz i hi
                    · exact hz2 i hi
                  · cases h
                    intro i hi
                    rcases List.mem_append.mp hi with hi | hi
                    · exact hz i hi
                    · exact hz2 i hi
                · rw [if_pos hv2] at h
                  cases h
                  intro hne i hi
                  rcases List.mem_append.mp hi with hi | hi
                  · exact hz i hi
                  · exact hpad2 hne i hi

/-- The struct case satisfies the padding invariant, provided the recursive
validator does. -/
theorem stepStruct_padinv (buf : DBusString)
    (vrec : TypeReader → Bool → Nat → Option VRes) (reader : TypeReader) (p pend : Nat)
    (hv : ∀ rd wk q r, vrec rd wk q = some r → PadInv buf r) :
    ∀ s, stepStruct vrec reader buf p pend = some s → stepPadInv buf s := by
  intro s h
  simp only [stepStruct] at h
  split at h
  · cases h
    intro _ i hi
    simp at hi
  · split at h
    · next l hcp =>
      cases h
      intro hne
      exact absurd rfl hne
    · next l hcp =>
      have hz : ∀ i ∈ l, byteAt buf i = 0 := checkPadding_ok_zero buf _ p l hcp
      split at h
      · exact Option.noConfusion h
      · next r2 hrec =>
        have hpad2 : PadInv buf r2 := hv _ _ _ r2 hrec
        by_cases hv2 : r2.v = DBUS_VALID
        · have hz2 : ∀ i ∈ r2.chk, byteAt buf i = 0 := hpad2 (by rw [hv2]; simp)
          rw [if_neg (not_not_intro hv2)] at h
          cases h
          intro i hi
          rcases List.mem_append.mp hi with hi | hi
          · exact hz i hi
          · exact hz2 i hi
        · rw [if_pos hv2] at h
          cases h
          intro hne i hi
          rcases List.mem_append.mp hi with hi | hi
          · exact hz i hi
          · exact hpad2 hne i hi

/-- The per-type dispatch satisfies the padding invariant, provided the
recursive validator does. -/
theorem stepFor_padinv (buf : DBusString)
    (vrec : TypeReader → Bool → Nat → Option VRes) (f : Nat) (reader : TypeReader)
    (ct bo p pend : Nat)
    (hv : ∀ rd wk q r, vrec rd wk q = some r → PadInv buf r) :
    ∀ s, stepFor vrec f reader ct bo buf p pend = some s → stepPadInv buf s := by
  intro s h
  simp only [stepFor] at h
  split at h
  · cases h
    intro i hi
    simp at hi
  · split at h
    · cases h
      exact stepFixed_padinv buf ct bo p pend
    · split at h
      · exact stepLenPrefixed_padinv buf vrec f reader ct bo p pend hv s h
      · split at h
        · cases h
          exact stepSig_padinv buf p pend
        · split at h
          · exact stepVariant_padinv buf vrec p pend hv s h
          · split at h
            · exact stepStruct_padinv buf vrec reader p pend hv s h
            · exact Option.noConfusion h

set_option maxHeartbeats 2000000 in
/-- Every completed run of `validate_body_helper` satisfies the padding
invariant: unless the verdict is the padding error, every nul-checked
skipped byte is zero. -/
theorem validate_body_helper_padinv :
    ∀ (f : Nat) (reader : TypeReader) (bo : Nat) (walk : Bool) (buf : DBusString)
      (p pend : Nat) (r : VRes),
      validate_body_helper f reader bo walk buf p pend = some r → PadInv buf r := by
  intro f
  induction f with
  | zero =>
    intro reader bo walk buf p pend r h
    exact Option.noConfusion h
  | succ m ih =>
    intro reader bo walk buf p pend r h
    simp only [validate_body_helper] at h
    split at h
    · cases h
      intro _ i hi
      simp at hi
    · split at h
      · cases h
        intro _ i hi
        simp at hi
      · split at h
        · exact Option.noConfusion h
        · next v c u heq =>
          have hstep := stepFor_padinv buf _ m reader _ bo p pend
            (fun rd wk q rr hq => ih rd bo wk buf q pend rr hq) _ heq
          cases h
          intro hne i hi
          exact hstep hne i hi
        · next p' c u heq =>
          have hcz : ∀ i ∈ c, byteAt buf i = 0 :=
            stepFor_padinv buf _ m reader _ bo p pend
              (fun rd wk q rr hq => ih rd bo wk buf q pend rr hq) _ heq
          by_cases hp : p' > pend
          · rw [if_pos hp] at h
            cases h
            intro _ i hi
            exact hcz i hi
          · rw [if_neg hp] at h
            by_cases hwk : walk = true
            · rw [if_pos hwk] at h
              split at h
              · exact Option.noConfusion h
              · next r2 hrec =>
                have hpad2 : PadInv buf r2 := ih _ _ _ _ _ _ r2 hrec
                cases h
                intro hne i hi
                rcases List.mem_append.mp hi with hi | hi
                · exact hcz i hi
                · exact hpad2 hne i hi
            · rw [if_neg hwk] at h
              cases h
              intro _ i hi
              exact hcz i hi

/-- C3 counterexample: for the array-of-int64 signature, the bytes skipped
when further aligning to the element alignment after the length prefix are
NOT nul-checked: this body has a non-zero byte (index 4) among the skipped
positions (recorded in `unchk`), yet validation returns `DBUS_VALID`
instead of the alignment-padding-not-nul code. -/
theorem C3_array_elem_alignment_skip_unchecked :
    validate_body_helper 50 ⟨mkStr [97, 120], 0⟩ 108 true
        (mkStr [8, 0, 0, 0, 1, 0, 0, 0, 0, 0, 0, 0, 0, 0, 0, 0]) 0 16 =
      some ⟨DBUS_VALID, 16, [], [4, 5, 6, 7]⟩ ∧
    byteAt (mkStr [8, 0, 0, 0, 1, 0, 0, 0, 0, 0, 0, 0, 0, 0, 0, 0]) 4 = 1 ∧
    _dbus_validate_body_with_reason (mkStr [97, 120]) 0 108 false
        (mkStr [8, 0, 0, 0, 1, 0, 0, 0, 0, 0, 0, 0, 0, 0, 0, 0]) 0 16 50 =
      some (DBUS_VALID, none) := by
  refine ⟨by decide, by decide, by decide⟩

/-- C3 (amended): at the nul-checked alignment sites — before fixed-width
values, before the 4-byte length prefix, before a variant's contained value
and before a struct's 8-aligned start — a completed validation whose
recorded skipped bytes include a non-zero byte always fails with the
alignment-padding-not-nul code; the concrete run shows the recording at
work (three zero padding bytes before a uint32, accepted).  The bytes
skipped by the array element-type alignment after the length prefix are
excluded: the code skips them without checking. -/
theorem C3_checked_padding_forces_error :
    (∀ (fuel : Nat) (reader : TypeReader) (byte_order : Nat) (walk : Bool)
       (buf : DBusString) (p pend : Nat) (r : VRes),
       validate_body_helper fuel reader byte_order walk buf p pend = some r →
       (∃ i ∈ r.chk, byteAt buf i ≠ 0) →
       r.v = DBUS_INVALID_ALIGNMENT_PADDING_NOT_NUL) ∧
    validate_body_helper 50 ⟨mkStr [121, 117], 0⟩ 108 true
        (mkStr [1, 0, 0, 0, 0, 0, 0, 0]) 0 8 =
      some ⟨DBUS_VALID, 8, [1, 2, 3], []⟩ := by
  refine ⟨?_, by decide⟩
  intro fuel reader byte_order walk buf p pend r h hex
  by_contra hne
  obtain ⟨i, hi, hnz⟩ := hex
  exact hnz (validate_body_helper_padinv fuel reader byte_order walk buf p pend r h hne i hi)

/-- C3 witness: the invariant applied to a body whose checked padding byte
before a uint32 is 5: validation fails with the padding code. -/
theorem C3_checked_padding_forces_error_witness :
    (⟨DBUS_INVALID_ALIGNMENT_PADDING_NOT_NUL, 1, [1], []⟩ : VRes).v =
      DBUS_INVALID_ALIGNMENT_PADDING_NOT_NUL :=
  C3_checked_padding_forces_error.1 50 ⟨mkStr [121, 117], 0⟩ 108 true
    (mkStr [1, 5, 0, 0, 0, 0, 0, 0]) 0 8
    ⟨DBUS_INVALID_ALIGNMENT_PADDING_NOT_NUL, 1, [1], []⟩ (by decide) (by decide)
